import Mathlib

/-!
# Verification of the `jsre` embedded scripting host

This development gives a shallow embedding of the event-loop core of the
`jsre` package (file `jsre.go`): the timer registry, the dispatch loop
`runEventLoop`, the blocking submission function `do`, `Stop`, and the
native capability bindings `shellExec`, `readFile` and `writeFile`.

Modelling conventions:
* Script-engine values (`otto.Value`) are modelled by the inductive `JsValue`;
  the engine itself is opaque, so callbacks and evaluation requests are
  modelled by the registry operations they may perform through the bound
  builtins (`setTimeout` / `setInterval` / `clearTimeout` / `clearInterval`).
* `*jsTimer` pointer identity is modelled by a numeric `id` field.
* Go channels become lists in the loop state (`ready`) or event labels
  (evaluation requests, the stop signal); the OS-level timer facility
  (`time.AfterFunc` goroutines) becomes the separate `expire` transition,
  which only moves an armed timer into the `ready` queue and never touches
  the registry, exactly as in the source.
* `nil` entries of a Go `[]interface{}` are modelled by `Option JsValue`
  with `none` for `nil`.
-/

namespace Jsre

/-- An opaque script-engine value (`otto.Value`). -/
inductive JsValue where
  | undef : JsValue
  | num : Int → JsValue
  | str : String → JsValue
  /-- An opaque function reference, distinguished by an index. -/
  | fn : Nat → JsValue
  deriving DecidableEq, Repr

/-- `jsTimer`: a single timer instance.  `id` models the Go pointer identity
of the `*jsTimer` (the registry key); `duration` is the effective delay in
milliseconds; `interval` the repeating flag; `argumentList` the stored
`otto.FunctionCall`'s `ArgumentList` (callback, delay, extra arguments). -/
structure jsTimer where
  id : Nat
  duration : Int
  interval : Bool
  argumentList : List JsValue
  deriving DecidableEq, Repr

/-- `call.Argument(1).ToInteger()`: the conversion applied to the delay
argument.  A numeric value converts to its integer value and a missing
argument (`undefined`) to 0.  Conversions of other value kinds are performed
by the opaque engine and are not exercised by any claim; they are modelled
as 0. -/
def toInteger : JsValue → Int
  | .num n => n
  | _ => 0

/-- The delay clamp of `newTimer`: `if 0 >= delay { delay = 1 }`. -/
def effectiveDelay (delay : Int) : Int :=
  if 0 ≥ delay then 1 else delay

/-- `newTimer` (jsre.go lines 102-125): build the `jsTimer` for a
`setTimeout` / `setInterval` call.  The delay is read from argument 1 and
clamped; the timer stores the whole argument list.  Registration in the
registry and arming of the underlying OS timer are performed by the
`RegOp.newT` registry operation below. -/
def newTimer (argumentList : List JsValue) (interval : Bool) (id : Nat) : jsTimer :=
  { id := id
    duration := effectiveDelay (toInteger (argumentList.getD 1 .undef))
    interval := interval
    argumentList := argumentList }

/-- A registry operation a script can perform through the bound builtins
while it runs on the dispatch-loop thread: `newT t` models
`setTimeout` / `setInterval` calling `newTimer` (insert `t` into the
registry and arm its underlying timer), `clearT i` models
`clearTimeout` / `clearInterval` on the timer with identity `i`
(`timer.timer.Stop(); delete(registry, timer)`). -/
inductive RegOp where
  | newT : jsTimer → RegOp
  | clearT : Nat → RegOp
  deriving DecidableEq, Repr

/-- The state of the event loop and of the OS timer facility.

* `registry` — the `registry` map (a set of timers keyed by identity).
* `armed` — the timers whose underlying `time.Timer` is currently armed.
* `ready` — pending deliveries on the `ready` channel.
* `waitForCallbacks` — the loop-local drain flag.
* `exited` — the loop has left the `for` loop (`break loop`) and run the
  final cleanup.
* `doneSignaled` — `loopWg.Done()` has been called (this is what
  `Stop`'s `loopWg.Wait()` blocks on).
* `firedLog` — one entry per `vm.Call` performed for a timer fire:
  the timer identity and the argument list passed to the engine call
  (`none` when the build of the argument list would panic on an empty
  `ArgumentList`).
* `errorLog` — one entry per `fmt.Println("js error", ...)` report.
* `ranLog` — identities of evaluation requests whose `fn` has been run.
* `doneClosed` — identities of evaluation requests whose `done` channel
  has been closed. -/
structure LoopState where
  registry : List jsTimer
  armed : List jsTimer
  ready : List jsTimer
  waitForCallbacks : Bool
  exited : Bool
  doneSignaled : Bool
  firedLog : List (Nat × Option (List (Option JsValue)))
  errorLog : List Nat
  ranLog : List Nat
  doneClosed : List Nat
  deriving DecidableEq, Repr

/-- The loop state right after `runEventLoop` starts. -/
def initState : LoopState :=
  { registry := []
    armed := []
    ready := []
    waitForCallbacks := false
    exited := false
    doneSignaled := false
    firedLog := []
    errorLog := []
    ranLog := []
    doneClosed := [] }

/-- Apply one registry operation, as the corresponding builtin does when the
script invokes it on the dispatch-loop thread. -/
def applyOp (s : LoopState) : RegOp → LoopState
  | .newT t =>
      -- newTimer: `registry[timer] = timer` and `time.AfterFunc` arms the
      -- underlying timer.  Go allocates a fresh pointer, so the key is new.
      { s with registry := s.registry ++ [t], armed := s.armed ++ [t] }
  | .clearT i =>
      -- clearTimeout: `timer.timer.Stop()` disarms the underlying timer
      -- (a no-op when it already fired) and `delete(registry, timer)`.
      { s with registry := s.registry.filter (fun u => u.id ≠ i)
               armed := s.armed.filter (fun u => u.id ≠ i) }

/-- Apply a sequence of registry operations (the visible effect of one
`vm.Call` or of one evaluation request's `fn`). -/
def applyOps (s : LoopState) (ops : List RegOp) : LoopState :=
  ops.foldl applyOp s

/-- The code after `break loop` (jsre.go lines 194-199): stop the underlying
timer of every timer still in the registry, clear the registry, and call
`loopWg.Done()`. -/
def exitLoop (s : LoopState) : LoopState :=
  { s with
    armed := s.armed.filter (fun t => ¬ s.registry.any (fun u => u.id = t.id))
    registry := []
    exited := true
    doneSignaled := true }

/-- Building of the `arguments` slice for `vm.Call` (jsre.go lines 157-167).
`none` models the Go runtime panic `index out of range` that
`arguments[0] = timer.call.ArgumentList[0]` raises on an empty argument
list.  When the original call has more than two arguments, the slice has
the same length as `ArgumentList`, with the callback at index 0, the
never-assigned `nil` at index 1, and the extra arguments from index 2 on;
otherwise it is the one-element slice holding the callback. -/
def buildArguments (argumentList : List JsValue) : Option (List (Option JsValue)) :=
  match argumentList.head? with
  | none => none
  | some cb =>
      if 2 < argumentList.length then
        some (some cb :: none :: (argumentList.drop 2).map some)
      else
        some [some cb]

/-- The `case timer := <-ready` branch of the dispatch loop (jsre.go lines
155-179).  The head of `ready` is received; the callback is invoked through
the engine (`firedLog`), performing the registry operations `ops`; when the
call returned an error (`errored`) it is printed (`errorLog`); then a
periodic timer's underlying timer is `Reset` with the original duration,
while a one-shot timer is deleted from the registry, followed by the drain
emptiness check. -/
def stepReady (s : LoopState) (ops : List RegOp) (errored : Bool) : LoopState :=
  match s.ready with
  | [] => s
  | t :: rest =>
      let s1 : LoopState :=
        { s with ready := rest
                 firedLog := s.firedLog ++ [(t.id, buildArguments t.argumentList)] }
      let s2 := applyOps s1 ops
      let s3 : LoopState :=
        if errored then { s2 with errorLog := s2.errorLog ++ [t.id] } else s2
      if t.interval then
        -- timer.timer.Reset(timer.duration): rearm the underlying timer.
        { s3 with armed := s3.armed.filter (fun u => u.id ≠ t.id) ++ [t] }
      else
        let s4 : LoopState := { s3 with registry := s3.registry.filter (fun u => u.id ≠ t.id) }
        if s4.waitForCallbacks && s4.registry.isEmpty then exitLoop s4 else s4

/-- The `case req := <-self.evalQueue` branch (jsre.go lines 180-186): run
`req.fn(vm)` (performing the registry operations `ops`), close `req.done`,
then the drain emptiness check.  `rid` is the identity of the request
handed over on the unbuffered channel. -/
def stepEval (s : LoopState) (rid : Nat) (ops : List RegOp) : LoopState :=
  let s1 : LoopState := { s with ranLog := s.ranLog ++ [rid] }
  let s2 := applyOps s1 ops
  let s3 : LoopState := { s2 with doneClosed := s2.doneClosed ++ [rid] }
  if s3.waitForCallbacks && s3.registry.isEmpty then exitLoop s3 else s3

/-- The `case waitForCallbacks = <-self.stopEventLoop` branch (jsre.go lines
187-190): record the drain flag, then terminate immediately unless draining
with a non-empty registry. -/
def stepStop (s : LoopState) (drain : Bool) : LoopState :=
  let s1 : LoopState := { s with waitForCallbacks := drain }
  if !s1.waitForCallbacks || s1.registry.isEmpty then exitLoop s1 else s1

/-- Expiry of the underlying OS timer with identity `i` (the
`time.AfterFunc` callback, jsre.go lines 115-117): it runs on a separate
execution context and only sends the timer on the `ready` channel; it never
mutates the registry. -/
def stepExpire (s : LoopState) (i : Nat) : LoopState :=
  match s.armed.find? (fun t => t.id = i) with
  | none => s
  | some t =>
      { s with armed := s.armed.filter (fun u => u.id ≠ i)
               ready := s.ready ++ [t] }

/-- One observable event of the system: a `select` arm of the dispatch loop
taken with the given nondeterministic script behaviour, or an OS timer
expiry. -/
inductive LoopEvent where
  | ready : List RegOp → Bool → LoopEvent
  | eval : Nat → List RegOp → LoopEvent
  | stop : Bool → LoopEvent
  | expire : Nat → LoopEvent
  deriving DecidableEq, Repr

/-- One step of the system.  The three `select` arms are only taken while
the loop is running; an OS timer may expire at any moment. -/
def step (s : LoopState) : LoopEvent → LoopState
  | .ready ops errored => if s.exited then s else stepReady s ops errored
  | .eval rid ops => if s.exited then s else stepEval s rid ops
  | .stop drain => if s.exited then s else stepStop s drain
  | .expire i => stepExpire s i

/-- Run a sequence of events. -/
def run (s : LoopState) (events : List LoopEvent) : LoopState :=
  events.foldl step s

/-! ## Native capability bindings -/

/-- The outcome the host observes when `exec.Command("sh", "-c", cmd)` is
run with `CombinedOutput`: the single buffer holding the command's combined
standard output and standard error, the command's own standard-error stream
(which `CombinedOutput` does not return separately), and the exit status
(`0` for success). -/
structure ProcOutcome where
  combinedOutput : String
  stderrStream : String
  exitStatus : Nat
  deriving DecidableEq, Repr

/-- The error description `err.Error()` produced by the `os/exec` package
for a command that exited with a non-zero status. -/
def hostErrorMessage (status : Nat) : String :=
  "exit status " ++ toString status

/-- The structured object returned by `process.exec`. -/
structure ShellResult where
  stdout : String
  stderr : String
  deriving DecidableEq, Repr

/-- `shellExec` (jsre.go lines 327-344), for a command text (a string, so
`ToString` succeeds).  `runCmd` models the host running `sh -c cmd`.  The
`stdout` field receives the `CombinedOutput` buffer; the `stderr` field is
the empty string when the command succeeded and the host-side error
description otherwise.  Every path returns a `ShellResult`; nothing is
raised into script. -/
def shellExec (runCmd : String → ProcOutcome) (cmd : String) : ShellResult :=
  let execution := runCmd cmd
  { stdout := execution.combinedOutput
    stderr := if execution.exitStatus = 0 then "" else hostErrorMessage execution.exitStatus }

/-- The host filesystem, as the file bindings see it: a mapping from path
to file contents.  Go's `[]byte(s)` / `string(b)` conversions are exact
byte-level inverses, so contents are stored as the strings the bindings
exchange with the script. -/
abbrev FileSystem := List (String × String)

/-- `ioutil.WriteFile` backing `writeFile` (jsre.go lines 282-290), success
path: the file at `file` now holds exactly `content` (overwrite). -/
def writeFile (fs : FileSystem) (file content : String) : FileSystem :=
  (file, content) :: fs.filter (fun e => e.1 ≠ file)

/-- `ioutil.ReadFile` backing `readFile` (jsre.go lines 273-281): the
contents of the file at `file`, or `none` when reading fails (the binding
then returns `false` to the script); on success the binding returns
`string(contents)`. -/
def readFile (fs : FileSystem) (file : String) : Option String :=
  (fs.find? (fun e => e.1 = file)).map (fun e => e.2)

/-! ## Refinement comparison definitions (from the spec's words) -/

/-- Modelled from the spec: the engine-call argument list as the spec
describes it — "Build the call argument list by dropping the delay argument
and keeping the callback plus any bound extra arguments": the callback
(position 0) followed directly by the arguments at positions 2 and beyond. -/
def specBuiltArguments (argumentList : List JsValue) : List (Option JsValue) :=
  (argumentList.take 1 ++ argumentList.drop 2).map some

/-! ## Semantics of the engine call target

The loop invokes callbacks through `vm.Call("Function.call.call", nil,
arguments...)`.  `Function.call.call(f, thisArg, a₁, ..., aₙ)` invokes `f`
with `this = thisArg` and argument list `a₁, ..., aₙ`: element 0 of the
slice is the function invoked, element 1 the this-value, and the elements
from index 2 on are the arguments the callback receives. -/

/-- The function a `Function.call.call` engine call invokes: element 0 of
the argument slice (`none` both for an empty slice and for a `nil` entry,
which the engine treats as `undefined`). -/
def callCallTarget (arguments : List (Option JsValue)) : Option JsValue :=
  arguments.getD 0 none

/-- The arguments the callback receives from a `Function.call.call` engine
call: the slice elements from index 2 on. -/
def callCallArgs (arguments : List (Option JsValue)) : List (Option JsValue) :=
  arguments.drop 2

/-! ## Counting helpers for the timer-lifecycle invariants -/

/-- Number of timers with identity `i` in a list. -/
def countId (l : List jsTimer) (i : Nat) : Nat :=
  l.countP (fun t => t.id = i)

/-- Number of engine invocations logged for the timer with identity `i`. -/
def firedCount (s : LoopState) (i : Nat) : Nat :=
  s.firedLog.countP (fun p => p.1 = i)

/-- The at-most-once measure for the timer with identity `i`: pending
arming, pending ready notifications, and invocations already performed. -/
def oneShotMeasure (s : LoopState) (i : Nat) : Nat :=
  countId s.armed i + countId s.ready i + firedCount s i

/-- Whether a registry operation creates a timer with identity `i`. -/
def opTargetsId : RegOp → Nat → Bool
  | .newT t, i => t.id = i
  | .clearT _, _ => false

/-- No operation in `ops` creates a timer with identity `i` (fresh pointer
identities: `newTimer` never re-creates an existing timer). -/
def opsAvoid (ops : List RegOp) (i : Nat) : Prop :=
  ∀ op ∈ ops, opTargetsId op i = false

/-- No script behaviour in the event creates a timer with identity `i`. -/
def eventAvoids : LoopEvent → Nat → Prop
  | .ready ops _, i => opsAvoid ops i
  | .eval _ ops, i => opsAvoid ops i
  | .stop _, _ => True
  | .expire _, _ => True

instance decOpsAvoid (ops : List RegOp) (i : Nat) : Decidable (opsAvoid ops i) :=
  inferInstanceAs (Decidable (∀ op ∈ ops, opTargetsId op i = false))

instance decEventAvoids (e : LoopEvent) (i : Nat) : Decidable (eventAvoids e i) :=
  match e with
  | .ready ops _ => inferInstanceAs (Decidable (opsAvoid ops i))
  | .eval _ ops => inferInstanceAs (Decidable (opsAvoid ops i))
  | .stop _ => inferInstanceAs (Decidable True)
  | .expire _ => inferInstanceAs (Decidable True)

/-- Every timer record with identity `i` held by the OS timer facility or
the ready channel is one-shot. -/
def oneShotAt (s : LoopState) (i : Nat) : Prop :=
  ∀ t ∈ s.armed ++ s.ready, t.id = i → t.interval = false

instance decOneShotAt (s : LoopState) (i : Nat) : Decidable (oneShotAt s i) :=
  inferInstanceAs (Decidable (∀ t ∈ s.armed ++ s.ready, t.id = i → t.interval = false))

/-- The identity of the evaluation request an event hands over, if any. -/
def evalIdOf : LoopEvent → Option Nat
  | .eval rid _ => some rid
  | _ => none

/-! ## Concrete scenarios -/

/-- A one-shot timer from `setTimeout(cb, 10)`. -/
def cancelledOneShot : jsTimer :=
  newTimer [JsValue.fn 0, JsValue.num 10] false 0

/-- The cancellation race: a script schedules `setTimeout(cb, 10)`; the OS
timer expires and enqueues the ready notification; a later evaluation
request cancels the timer with `clearTimeout` (the underlying `Stop()` is a
no-op because the timer already fired); the loop then services the pending
ready notification. -/
def cancelRaceEvents : List LoopEvent :=
  [LoopEvent.eval 1 [RegOp.newT cancelledOneShot],
   LoopEvent.expire 0,
   LoopEvent.eval 2 [RegOp.clearT 0],
   LoopEvent.ready [] false]

/-- A periodic timer from `setInterval(cb, 10)`. -/
def drainInterval : jsTimer :=
  newTimer [JsValue.fn 0, JsValue.num 10] true 5

/-- The drain scenario: a script schedules `setInterval(cb, 10)`; the host
calls `Stop(true)` while the registry is non-empty, so the loop keeps
running in drain mode; the interval expires, and its callback cancels the
interval itself (`clearInterval` on its own handle), emptying the
registry. -/
def drainRaceEvents : List LoopEvent :=
  [LoopEvent.eval 1 [RegOp.newT drainInterval],
   LoopEvent.stop true,
   LoopEvent.expire 5,
   LoopEvent.ready [RegOp.clearT 5] false]

/-- A one-shot timer from `setTimeout(cb, 5, "x")`: one bound extra
argument. -/
def fireArgsTimer : jsTimer :=
  newTimer [JsValue.fn 0, JsValue.num 5, JsValue.str "x"] false 0

/-- Schedule `setTimeout(cb, 5, "x")`, let it expire, service the fire. -/
def fireArgsEvents : List LoopEvent :=
  [LoopEvent.eval 1 [RegOp.newT fireArgsTimer],
   LoopEvent.expire 0,
   LoopEvent.ready [] false]

/-! ## Frame lemmas

The registry operations only touch `registry` and `armed`; the loop exit
only touches `registry`, `armed`, `exited` and `doneSignaled`. -/

@[simp]
theorem applyOp_ready (s : LoopState) (op : RegOp) : (applyOp s op).ready = s.ready := by
  cases op <;> rfl

@[simp]
theorem applyOp_waitForCallbacks (s : LoopState) (op : RegOp) :
    (applyOp s op).waitForCallbacks = s.waitForCallbacks := by
  cases op <;> rfl

@[simp]
theorem applyOp_exited (s : LoopState) (op : RegOp) : (applyOp s op).exited = s.exited := by
  cases op <;> rfl

@[simp]
theorem applyOp_doneSignaled (s : LoopState) (op : RegOp) :
    (applyOp s op).doneSignaled = s.doneSignaled := by
  cases op <;> rfl

@[simp]
theorem applyOp_firedLog (s : LoopState) (op : RegOp) : (applyOp s op).firedLog = s.firedLog := by
  cases op <;> rfl

@[simp]
theorem applyOp_errorLog (s : LoopState) (op : RegOp) : (applyOp s op).errorLog = s.errorLog := by
  cases op <;> rfl

@[simp]
theorem applyOp_ranLog (s : LoopState) (op : RegOp) : (applyOp s op).ranLog = s.ranLog := by
  cases op <;> rfl

@[simp]
theorem applyOp_doneClosed (s : LoopState) (op : RegOp) :
    (applyOp s op).doneClosed = s.doneClosed := by
  cases op <;> rfl

@[simp]
theorem applyOps_nil (s : LoopState) : applyOps s [] = s := rfl

@[simp]
theorem applyOps_cons (s : LoopState) (op : RegOp) (ops : List RegOp) :
    applyOps s (op :: ops) = applyOps (applyOp s op) ops := rfl

@[simp]
theorem applyOps_ready (ops : List RegOp) : ∀ s : LoopState, (applyOps s ops).ready = s.ready := by
  induction ops with
  | nil => intro s; rfl
  | cons op ops ih => intro s; rw [applyOps_cons, ih, applyOp_ready]

@[simp]
theorem applyOps_waitForCallbacks (ops : List RegOp) :
    ∀ s : LoopState, (applyOps s ops).waitForCallbacks = s.waitForCallbacks := by
  induction ops with
  | nil => intro s; rfl
  | cons op ops ih => intro s; rw [applyOps_cons, ih, applyOp_waitForCallbacks]

@[simp]
theorem applyOps_exited (ops : List RegOp) :
    ∀ s : LoopState, (applyOps s ops).exited = s.exited := by
  induction ops with
  | nil => intro s; rfl
  | cons op ops ih => intro s; rw [applyOps_cons, ih, applyOp_exited]

@[simp]
theorem applyOps_doneSignaled (ops : List RegOp) :
    ∀ s : LoopState, (applyOps s ops).doneSignaled = s.doneSignaled := by
  induction ops with
  | nil => intro s; rfl
  | cons op ops ih => intro s; rw [applyOps_cons, ih, applyOp_doneSignaled]

@[simp]
theorem applyOps_firedLog (ops : List RegOp) :
    ∀ s : LoopState, (applyOps s ops).firedLog = s.firedLog := by
  induction ops with
  | nil => intro s; rfl
  | cons op ops ih => intro s; rw [applyOps_cons, ih, applyOp_firedLog]

@[simp]
theorem applyOps_errorLog (ops : List RegOp) :
    ∀ s : LoopState, (applyOps s ops).errorLog = s.errorLog := by
  induction ops with
  | nil => intro s; rfl
  | cons op ops ih => intro s; rw [applyOps_cons, ih, applyOp_errorLog]

@[simp]
theorem applyOps_ranLog (ops : List RegOp) :
    ∀ s : LoopState, (applyOps s ops).ranLog = s.ranLog := by
  induction ops with
  | nil => intro s; rfl
  | cons op ops ih => intro s; rw [applyOps_cons, ih, applyOp_ranLog]

@[simp]
theorem applyOps_doneClosed (ops : List RegOp) :
    ∀ s : LoopState, (applyOps s ops).doneClosed = s.doneClosed := by
  induction ops with
  | nil => intro s; rfl
  | cons op ops ih => intro s; rw [applyOps_cons, ih, applyOp_doneClosed]

@[simp]
theorem exitLoop_registry (s : LoopState) : (exitLoop s).registry = [] := rfl

@[simp]
theorem exitLoop_exited (s : LoopState) : (exitLoop s).exited = true := rfl

@[simp]
theorem exitLoop_doneSignaled (s : LoopState) : (exitLoop s).doneSignaled = true := rfl

@[simp]
theorem exitLoop_ready (s : LoopState) : (exitLoop s).ready = s.ready := rfl

@[simp]
theorem exitLoop_waitForCallbacks (s : LoopState) :
    (exitLoop s).waitForCallbacks = s.waitForCallbacks := rfl

@[simp]
theorem exitLoop_firedLog (s : LoopState) : (exitLoop s).firedLog = s.firedLog := rfl

@[simp]
theorem exitLoop_errorLog (s : LoopState) : (exitLoop s).errorLog = s.errorLog := rfl

@[simp]
theorem exitLoop_ranLog (s : LoopState) : (exitLoop s).ranLog = s.ranLog := rfl

@[simp]
theorem exitLoop_doneClosed (s : LoopState) : (exitLoop s).doneClosed = s.doneClosed := rfl

/-- The error description of a failed command is never the empty string. -/
theorem hostErrorMessage_ne_empty (status : Nat) : hostErrorMessage status ≠ "" := by
  intro h
  have h2 := congrArg String.length h
  simp [hostErrorMessage, String.length_append] at h2
  exact absurd h2.1 (by decide)

@[simp]
theorem stepStop_ranLog (s : LoopState) (drain : Bool) : (stepStop s drain).ranLog = s.ranLog := by
  simp only [stepStop]
  split <;> rfl

@[simp]
theorem stepStop_doneClosed (s : LoopState) (drain : Bool) :
    (stepStop s drain).doneClosed = s.doneClosed := by
  simp only [stepStop]
  split <;> rfl

@[simp]
theorem stepStop_firedLog (s : LoopState) (drain : Bool) :
    (stepStop s drain).firedLog = s.firedLog := by
  simp only [stepStop]
  split <;> rfl

@[simp]
theorem stepStop_errorLog (s : LoopState) (drain : Bool) :
    (stepStop s drain).errorLog = s.errorLog := by
  simp only [stepStop]
  split <;> rfl

@[simp]
theorem stepExpire_registry (s : LoopState) (i : Nat) :
    (stepExpire s i).registry = s.registry := by
  simp only [stepExpire]
  split <;> rfl

@[simp]
theorem stepExpire_waitForCallbacks (s : LoopState) (i : Nat) :
    (stepExpire s i).waitForCallbacks = s.waitForCallbacks := by
  simp only [stepExpire]
  split <;> rfl

@[simp]
theorem stepExpire_exited (s : LoopState) (i : Nat) : (stepExpire s i).exited = s.exited := by
  simp only [stepExpire]
  split <;> rfl

@[simp]
theorem stepExpire_doneSignaled (s : LoopState) (i : Nat) :
    (stepExpire s i).doneSignaled = s.doneSignaled := by
  simp only [stepExpire]
  split <;> rfl

@[simp]
theorem stepExpire_firedLog (s : LoopState) (i : Nat) :
    (stepExpire s i).firedLog = s.firedLog := by
  simp only [stepExpire]
  split <;> rfl

@[simp]
theorem stepExpire_errorLog (s : LoopState) (i : Nat) :
    (stepExpire s i).errorLog = s.errorLog := by
  simp only [stepExpire]
  split <;> rfl

@[simp]
theorem stepExpire_ranLog (s : LoopState) (i : Nat) : (stepExpire s i).ranLog = s.ranLog := by
  simp only [stepExpire]
  split <;> rfl

@[simp]
theorem stepExpire_doneClosed (s : LoopState) (i : Nat) :
    (stepExpire s i).doneClosed = s.doneClosed := by
  simp only [stepExpire]
  split <;> rfl

@[simp]
theorem stepEval_ready (s : LoopState) (rid : Nat) (ops : List RegOp) :
    (stepEval s rid ops).ready = s.ready := by
  simp only [stepEval]
  split <;> simp

@[simp]
theorem stepEval_firedLog (s : LoopState) (rid : Nat) (ops : List RegOp) :
    (stepEval s rid ops).firedLog = s.firedLog := by
  simp only [stepEval]
  split <;> simp

@[simp]
theorem stepEval_errorLog (s : LoopState) (rid : Nat) (ops : List RegOp) :
    (stepEval s rid ops).errorLog = s.errorLog := by
  simp only [stepEval]
  split <;> simp

@[simp]
theorem stepEval_waitForCallbacks (s : LoopState) (rid : Nat) (ops : List RegOp) :
    (stepEval s rid ops).waitForCallbacks = s.waitForCallbacks := by
  simp only [stepEval]
  split <;> simp

/-- Processing an evaluation request appends it to the log of run
functions, in every branch. -/
theorem stepEval_ranLog (s : LoopState) (rid : Nat) (ops : List RegOp) :
    (stepEval s rid ops).ranLog = s.ranLog ++ [rid] := by
  simp only [stepEval]
  split <;> simp

/-- Processing an evaluation request closes its done channel, in every
branch. -/
theorem stepEval_doneClosed (s : LoopState) (rid : Nat) (ops : List RegOp) :
    (stepEval s rid ops).doneClosed = s.doneClosed ++ [rid] := by
  simp only [stepEval]
  split <;> simp

@[simp]
theorem stepReady_ranLog (s : LoopState) (ops : List RegOp) (errored : Bool) :
    (stepReady s ops errored).ranLog = s.ranLog := by
  simp only [stepReady]
  split
  · rfl
  · repeat' split
    all_goals simp

@[simp]
theorem stepReady_doneClosed (s : LoopState) (ops : List RegOp) (errored : Bool) :
    (stepReady s ops errored).doneClosed = s.doneClosed := by
  simp only [stepReady]
  split
  · rfl
  · repeat' split
    all_goals simp

@[simp]
theorem stepReady_waitForCallbacks (s : LoopState) (ops : List RegOp) (errored : Bool) :
    (stepReady s ops errored).waitForCallbacks = s.waitForCallbacks := by
  simp only [stepReady]
  split
  · rfl
  · repeat' split
    all_goals simp

/-- Servicing a ready notification logs exactly one engine invocation, for
the head timer of the ready queue, with the argument slice built from its
stored call, in every branch. -/
theorem stepReady_firedLog (s : LoopState) (ops : List RegOp) (errored : Bool)
    (t : jsTimer) (rest : List jsTimer) (h : s.ready = t :: rest) :
    (stepReady s ops errored).firedLog
      = s.firedLog ++ [(t.id, buildArguments t.argumentList)] := by
  simp only [stepReady, h]
  repeat' split
  all_goals simp

/-- Structural description of servicing a ready notification for a periodic
timer: one engine invocation is logged, the callback's registry operations
are applied, an error is reported exactly when the call failed, and the
underlying timer is rearmed; the loop performs no deletion, no exit and no
emptiness check in this branch. -/
theorem stepReady_interval (s : LoopState) (ops : List RegOp) (errored : Bool) (t : jsTimer)
    (rest : List jsTimer) (h : s.ready = t :: rest) (ht : t.interval = true) :
    stepReady s ops errored =
      (let s2 := applyOps { s with
          ready := rest
          firedLog := s.firedLog ++ [(t.id, buildArguments t.argumentList)] } ops
       { s2 with
          errorLog := if errored then s.errorLog ++ [t.id] else s.errorLog
          armed := s2.armed.filter (fun u => u.id ≠ t.id) ++ [t] }) := by
  by_cases he : errored <;> simp [stepReady, h, ht, he]

/-- Structural description of servicing a ready notification for a one-shot
timer: one engine invocation is logged, the callback's registry operations
are applied, an error is reported exactly when the call failed, the timer
is deleted from the registry, and the drain emptiness check may exit the
loop. -/
theorem stepReady_oneshot (s : LoopState) (ops : List RegOp) (errored : Bool) (t : jsTimer)
    (rest : List jsTimer) (h : s.ready = t :: rest) (ht : t.interval = false) :
    stepReady s ops errored =
      (let s2 := applyOps { s with
          ready := rest
          firedLog := s.firedLog ++ [(t.id, buildArguments t.argumentList)] } ops
       let s4 : LoopState := { s2 with
          errorLog := if errored then s.errorLog ++ [t.id] else s.errorLog
          registry := s2.registry.filter (fun u => u.id ≠ t.id) }
       if s4.waitForCallbacks && s4.registry.isEmpty then exitLoop s4 else s4) := by
  by_cases he : errored <;> simp [stepReady, h, ht, he]

/-- Membership in the registry survives a sequence of registry operations
that never cancels the member's identity. -/
theorem mem_registry_applyOps (ops : List RegOp) :
    ∀ (s : LoopState) (u : jsTimer), u ∈ s.registry → RegOp.clearT u.id ∉ ops →
      u ∈ (applyOps s ops).registry := by
  induction ops with
  | nil => intro s u hu _; exact hu
  | cons op ops ih =>
      intro s u hu hops
      rw [applyOps_cons]
      refine ih (applyOp s op) u ?_ (fun hmem => hops (List.mem_cons_of_mem _ hmem))
      cases op with
      | newT t => simp [applyOp, hu]
      | clearT i =>
          have hne : u.id ≠ i := by
            intro hidem
            exact hops (by simp [hidem])
          simp [applyOp, List.mem_filter, hu, hne]

/-! ## Claims -/

/-- Claim C6: for every timer registration (setTimeout or setInterval) whose
delay argument is less than or equal to zero, the effective delay stored and
used to arm the timer is exactly 1 millisecond; for every positive delay d,
the effective delay is d milliseconds. -/
theorem delay_clamp (cb : JsValue) (d : Int) (rest : List JsValue) (interval : Bool)
    (i : Nat) (s : LoopState) :
    (d ≤ 0 → (newTimer (cb :: JsValue.num d :: rest) interval i).duration = 1)
    ∧ (0 < d → (newTimer (cb :: JsValue.num d :: rest) interval i).duration = d)
    ∧ newTimer (cb :: JsValue.num d :: rest) interval i
        ∈ (applyOp s (RegOp.newT (newTimer (cb :: JsValue.num d :: rest) interval i))).armed
    ∧ newTimer (cb :: JsValue.num d :: rest) interval i
        ∈ (applyOp s (RegOp.newT (newTimer (cb :: JsValue.num d :: rest) interval i))).registry := by
  refine ⟨?_, ?_, ?_, ?_⟩
  · intro h
    simp only [newTimer, List.getD_cons_succ, List.getD_cons_zero, toInteger, effectiveDelay]
    rw [if_pos (by omega)]
  · intro h
    simp only [newTimer, List.getD_cons_succ, List.getD_cons_zero, toInteger, effectiveDelay]
    rw [if_neg (by omega)]
  · simp [applyOp]
  · simp [applyOp]

theorem delay_clamp_witness :
    (newTimer [JsValue.fn 0, JsValue.num (-5)] false 0).duration = 1
    ∧ (newTimer [JsValue.fn 0, JsValue.num 0] false 0).duration = 1
    ∧ (newTimer [JsValue.fn 0, JsValue.num 30] true 1).duration = 30
    ∧ newTimer [JsValue.fn 0, JsValue.num 30] true 1
        ∈ (applyOp initState (RegOp.newT (newTimer [JsValue.fn 0, JsValue.num 30] true 1))).armed :=
  ⟨(delay_clamp (JsValue.fn 0) (-5) [] false 0 initState).1 (by decide),
   (delay_clamp (JsValue.fn 0) 0 [] false 0 initState).1 (by decide),
   (delay_clamp (JsValue.fn 0) 30 [] true 1 initState).2.1 (by decide),
   (delay_clamp (JsValue.fn 0) 30 [] true 1 initState).2.2.1⟩

/-- Claim C9: a successful writeFile followed by readFile on the same path,
with no intervening modification of that path, returns exactly the written
content. -/
theorem write_then_read_roundtrip (fs : FileSystem) (p c : String) :
    readFile (writeFile fs p c) p = some c := by
  simp [readFile, writeFile]

/-- Claim C8: runShellCommand never raises into script — it returns a
structured result in every case — and a failing command surfaces as a
non-empty stderr field while a succeeding command has an empty one. -/
theorem shellExec_structured_errors (runCmd : String → ProcOutcome) (cmd : String) :
    ((runCmd cmd).exitStatus ≠ 0 → (shellExec runCmd cmd).stderr ≠ "")
    ∧ ((runCmd cmd).exitStatus = 0 → (shellExec runCmd cmd).stderr = "")
    ∧ shellExec runCmd cmd
        = { stdout := (shellExec runCmd cmd).stdout, stderr := (shellExec runCmd cmd).stderr } := by
  refine ⟨?_, ?_, rfl⟩
  · intro h
    simp only [shellExec, if_neg h]
    exact hostErrorMessage_ne_empty _
  · intro h
    simp [shellExec, h]

theorem shellExec_structured_errors_witness :
    (shellExec (fun _ => ⟨"out", "boom", 1⟩) "false").stderr ≠ ""
    ∧ (shellExec (fun _ => ⟨"hello", "", 0⟩) "echo hello").stderr = "" :=
  ⟨(shellExec_structured_errors (fun _ => ⟨"out", "boom", 1⟩) "false").1 (by decide),
   (shellExec_structured_errors (fun _ => ⟨"hello", "", 0⟩) "echo hello").2.1 rfl⟩

/-- Claim C10: the stdout field returned by runShellCommand is the command's
combined standard output and standard error (CombinedOutput), and on failure
the stderr field is the host-side error description, not the command's own
standard-error stream. -/
theorem shellExec_combined_output (runCmd : String → ProcOutcome) (cmd : String) :
    (shellExec runCmd cmd).stdout = (runCmd cmd).combinedOutput
    ∧ ((runCmd cmd).exitStatus ≠ 0 →
        (shellExec runCmd cmd).stderr = hostErrorMessage (runCmd cmd).exitStatus)
    ∧ ((runCmd cmd).exitStatus ≠ 0 →
        (runCmd cmd).stderrStream ≠ hostErrorMessage (runCmd cmd).exitStatus →
        (shellExec runCmd cmd).stderr ≠ (runCmd cmd).stderrStream) := by
  refine ⟨rfl, ?_, ?_⟩
  · intro h
    simp [shellExec, h]
  · intro h hne
    simp only [shellExec, if_neg h]
    exact fun hc => hne hc.symm

theorem shellExec_combined_output_witness :
    (shellExec (fun _ => ⟨"combined out err", "actual stderr", 1⟩) "cmd").stdout
      = "combined out err"
    ∧ (shellExec (fun _ => ⟨"combined out err", "actual stderr", 1⟩) "cmd").stderr
      = hostErrorMessage 1
    ∧ (shellExec (fun _ => ⟨"combined out err", "actual stderr", 1⟩) "cmd").stderr
      ≠ "actual stderr" :=
  ⟨(shellExec_combined_output (fun _ => ⟨"combined out err", "actual stderr", 1⟩) "cmd").1,
   (shellExec_combined_output (fun _ => ⟨"combined out err", "actual stderr", 1⟩) "cmd").2.1
     (by decide),
   (shellExec_combined_output (fun _ => ⟨"combined out err", "actual stderr", 1⟩) "cmd").2.2
     (by decide) (by decide)⟩

/-- Claim C3: processing an evaluation request runs its function and closes
its done channel exactly once — the only step that touches the request's
done channel is the one that processes it — and the submitting caller,
which blocks until the done channel is closed, therefore returns only after
the function has run (the closed channels are always a subset of the run
functions). -/
theorem eval_request_completion (s : LoopState) (rid : Nat) (ops : List RegOp) :
    (s.exited = false →
      (step s (LoopEvent.eval rid ops)).ranLog = s.ranLog ++ [rid]
      ∧ (step s (LoopEvent.eval rid ops)).doneClosed = s.doneClosed ++ [rid])
    ∧ (s.exited = false → s.doneClosed.count rid = 0 →
        (step s (LoopEvent.eval rid ops)).doneClosed.count rid = 1
        ∧ rid ∈ (step s (LoopEvent.eval rid ops)).ranLog)
    ∧ (∀ e : LoopEvent, evalIdOf e ≠ some rid →
        (step s e).doneClosed.count rid = s.doneClosed.count rid)
    ∧ (∀ e : LoopEvent, s.doneClosed ⊆ s.ranLog →
        (step s e).doneClosed ⊆ (step s e).ranLog) := by
  refine ⟨?_, ?_, ?_, ?_⟩
  · intro hex
    simp [step, hex, stepEval_ranLog, stepEval_doneClosed]
  · intro hex hcount
    constructor
    · simp [step, hex, stepEval_doneClosed, List.count_append, hcount]
    · simp [step, hex, stepEval_ranLog]
  · intro e he
    cases e with
    | ready ops' errored => simp [step]; split <;> simp
    | eval rid' ops' =>
        have hne : rid' ≠ rid := by
          intro hidem
          exact he (by simp [evalIdOf, hidem])
        simp only [step]
        split
        · rfl
        · rw [stepEval_doneClosed, List.count_append]
          have h0 : List.count rid [rid'] = 0 := by
            rw [List.count_eq_zero]
            simp
            exact fun hEq => hne hEq.symm
          rw [h0]
          omega
    | stop drain => simp [step]; split <;> simp
    | expire i => simp [step]
  · intro e hsub
    cases e with
    | ready ops' errored =>
        simp only [step]
        split
        · exact hsub
        · simpa using hsub
    | eval rid' ops' =>
        simp only [step]
        split
        · exact hsub
        · rw [stepEval_doneClosed, stepEval_ranLog]
          intro a ha
          rcases List.mem_append.mp ha with h1 | h1
          · exact List.mem_append_left _ (hsub h1)
          · exact List.mem_append_right _ h1
    | stop drain =>
        simp only [step]
        split
        · exact hsub
        · simpa using hsub
    | expire i => simpa [step] using hsub

theorem eval_request_completion_witness :
    (step initState (LoopEvent.eval 7 [])).doneClosed.count 7 = 1
    ∧ 7 ∈ (step initState (LoopEvent.eval 7 [])).ranLog
    ∧ (step initState (LoopEvent.stop false)).doneClosed.count 7
        = initState.doneClosed.count 7
    ∧ (step initState (LoopEvent.eval 7 [])).doneClosed
        ⊆ (step initState (LoopEvent.eval 7 [])).ranLog :=
  ⟨((eval_request_completion initState 7 []).2.1 rfl rfl).1,
   ((eval_request_completion initState 7 []).2.1 rfl rfl).2,
   (eval_request_completion initState 7 []).2.2.1 (LoopEvent.stop false) (by decide),
   (eval_request_completion initState 7 []).2.2.2 (LoopEvent.eval 7 []) (by decide)⟩

/-- Claim C5, counterexample: for the scheduling call `setTimeout(cb, 5,
"x")` the argument slice passed to the engine call at the fire is the
callback, an unassigned nil this-value slot, then the extra argument — not
the callback directly followed by the extra argument, as building "by
dropping the delay argument and keeping the callback followed by the bound
extra arguments" would give. -/
theorem built_arguments_keep_this_slot :
    (run initState fireArgsEvents).firedLog
      = [(0, some [some (JsValue.fn 0), none, some (JsValue.str "x")])]
    ∧ buildArguments [JsValue.fn 0, JsValue.num 5, JsValue.str "x"]
      ≠ some (specBuiltArguments [JsValue.fn 0, JsValue.num 5, JsValue.str "x"]) := by
  decide

/-- Claim C5 (amended): for every timer fire with a nonempty stored argument
list, the engine-call slice logged for the fired timer has the stored
callback as the invoked target, and the arguments the callback receives are
exactly the bound extra arguments (the arguments at positions 2 and beyond
of the original scheduling call) — the delay argument is never passed on;
in the slice itself, when extra arguments exist, the delay's position holds
an unassigned nil this-value slot, and with no extras the slice is just the
callback. -/
theorem fire_invokes_callback_with_bound_args (cb : JsValue) (l : List JsValue)
    (h : l.head? = some cb) :
    ∃ built, buildArguments l = some built
      ∧ callCallTarget built = some cb
      ∧ callCallArgs built = (l.drop 2).map some
      ∧ (2 < l.length → built = some cb :: none :: (l.drop 2).map some)
      ∧ (¬ 2 < l.length → built = [some cb])
      ∧ (∀ (s : LoopState) (ops : List RegOp) (errored : Bool) (t : jsTimer)
            (rest : List jsTimer),
          s.ready = t :: rest → t.argumentList = l →
          (stepReady s ops errored).firedLog = s.firedLog ++ [(t.id, some built)]) := by
  by_cases h2 : 2 < l.length
  · refine ⟨some cb :: none :: (l.drop 2).map some, ?_, rfl, rfl, fun _ => rfl,
      fun hh => absurd h2 hh, ?_⟩
    · simp [buildArguments, h, h2]
    · intro s ops errored t rest hready hargs
      have hb : buildArguments l = some (some cb :: none :: (l.drop 2).map some) := by
        simp [buildArguments, h, h2]
      rw [stepReady_firedLog s ops errored t rest hready, hargs, hb]
  · refine ⟨[some cb], ?_, rfl, ?_, fun hh => absurd hh h2, fun _ => rfl, ?_⟩
    · simp [buildArguments, h, h2]
    · have hd : l.drop 2 = [] := List.drop_eq_nil_of_le (by omega)
      simp [callCallArgs, hd]
    · intro s ops errored t rest hready hargs
      have hb : buildArguments l = some [some cb] := by
        simp [buildArguments, h, h2]
      rw [stepReady_firedLog s ops errored t rest hready, hargs, hb]

theorem fire_invokes_callback_with_bound_args_witness :
    ∃ built,
      buildArguments [JsValue.fn 0, JsValue.num 5, JsValue.str "x"] = some built
      ∧ callCallTarget built = some (JsValue.fn 0)
      ∧ callCallArgs built = ([JsValue.fn 0, JsValue.num 5, JsValue.str "x"].drop 2).map some
      ∧ (2 < ([JsValue.fn 0, JsValue.num 5, JsValue.str "x"] : List JsValue).length →
          built = some (JsValue.fn 0) :: none ::
            (([JsValue.fn 0, JsValue.num 5, JsValue.str "x"] : List JsValue).drop 2).map some)
      ∧ (¬ 2 < ([JsValue.fn 0, JsValue.num 5, JsValue.str "x"] : List JsValue).length →
          built = [some (JsValue.fn 0)])
      ∧ (∀ (s : LoopState) (ops : List RegOp) (errored : Bool) (t : jsTimer)
            (rest : List jsTimer),
          s.ready = t :: rest →
          t.argumentList = [JsValue.fn 0, JsValue.num 5, JsValue.str "x"] →
          (stepReady s ops errored).firedLog = s.firedLog ++ [(t.id, some built)]) :=
  fire_invokes_callback_with_bound_args (JsValue.fn 0)
    [JsValue.fn 0, JsValue.num 5, JsValue.str "x"] rfl

/-- Claim C7: a failing callback invocation is reported (the error log grows
by exactly the report for this fire, while an error-free run reports
nothing) and changes nothing else — registry, armed timers, ready queue,
exit flag and invocation log are identical to the error-free run, so the
failure never terminates the loop; for a periodic timer the fire leaves the
loop exactly as running as before, rearms the timer, and the registry entry
survives unless the callback itself cancelled it. -/
theorem callback_failure_nonfatal (s : LoopState) (ops : List RegOp) (t : jsTimer)
    (rest : List jsTimer) (h : s.ready = t :: rest) :
    ((stepReady s ops true).errorLog = s.errorLog ++ [t.id]
      ∧ (stepReady s ops false).errorLog = s.errorLog
      ∧ (stepReady s ops true).registry = (stepReady s ops false).registry
      ∧ (stepReady s ops true).armed = (stepReady s ops false).armed
      ∧ (stepReady s ops true).ready = (stepReady s ops false).ready
      ∧ (stepReady s ops true).exited = (stepReady s ops false).exited
      ∧ (stepReady s ops true).firedLog = (stepReady s ops false).firedLog)
    ∧ (t.interval = true →
        (stepReady s ops true).exited = s.exited
        ∧ t ∈ (stepReady s ops true).armed
        ∧ (∀ u ∈ s.registry, RegOp.clearT u.id ∉ ops →
            u ∈ (stepReady s ops true).registry)) := by
  constructor
  · cases ht : t.interval
    · rw [stepReady_oneshot s ops true t rest h ht, stepReady_oneshot s ops false t rest h ht]
      dsimp only
      split <;> split <;> simp_all [exitLoop]
    · rw [stepReady_interval s ops true t rest h ht, stepReady_interval s ops false t rest h ht]
      simp
  · intro ht
    rw [stepReady_interval s ops true t rest h ht]
    refine ⟨by simp, by simp, ?_⟩
    intro u hu hops
    dsimp only
    exact mem_registry_applyOps ops _ u (by simpa using hu) hops

theorem callback_failure_nonfatal_witness :
    (stepReady { initState with ready := [drainInterval] } [] true).errorLog
      = initState.errorLog ++ [drainInterval.id]
    ∧ (stepReady { initState with ready := [drainInterval] } [] true).exited
      = ({ initState with ready := [drainInterval] } : LoopState).exited
    ∧ drainInterval ∈ (stepReady { initState with ready := [drainInterval] } [] true).armed :=
  ⟨((callback_failure_nonfatal { initState with ready := [drainInterval] } [] drainInterval []
      rfl).1).1,
   (((callback_failure_nonfatal { initState with ready := [drainInterval] } [] drainInterval []
      rfl).2) rfl).1,
   (((callback_failure_nonfatal { initState with ready := [drainInterval] } [] drainInterval []
      rfl).2) rfl).2.1⟩

/-- Claim C1, evaluation at the failing input: a script schedules
`setTimeout(cb, 10)`; the OS timer expires and enqueues the ready
notification; the timer is then cancelled by `clearTimeout` before the loop
services the notification (after the third event the registry is empty
while the notification is pending); yet the dispatch loop, which performs
no registry lookup in its timer-ready branch, still invokes the callback
through the engine, so the cancelled timer fires. -/
theorem cancelled_timer_still_fires :
    (run initState (cancelRaceEvents.take 3)).registry = []
    ∧ (run initState (cancelRaceEvents.take 3)).ready = [cancelledOneShot]
    ∧ (run initState cancelRaceEvents).firedLog
        = [(cancelledOneShot.id, buildArguments cancelledOneShot.argumentList)] := by
  decide

/-- Claim C2, counterexample: with the loop in drain mode (after `Stop(true)`
with a non-empty registry, second conjunct), a periodic timer's callback
cancels its own interval during the fire, emptying the registry — yet the
loop does not terminate, because the interval branch of the dispatch loop
performs no emptiness check. -/
theorem drain_misses_interval_emptied_registry :
    (run initState (drainRaceEvents.take 2)).exited = false
    ∧ (run initState (drainRaceEvents.take 2)).waitForCallbacks = true
    ∧ (run initState (drainRaceEvents.take 2)).registry = [drainInterval]
    ∧ (run initState drainRaceEvents).registry = []
    ∧ (run initState drainRaceEvents).exited = false := by
  decide

/-- Every step either leaves the exit and done-signal flags untouched, or
ends in the loop's exit cleanup. -/
theorem step_exit_dichotomy (s : LoopState) (e : LoopEvent) :
    ((step s e).exited = s.exited ∧ (step s e).doneSignaled = s.doneSignaled)
    ∨ (∃ s' : LoopState, step s e = exitLoop s') := by
  cases e with
  | expire i => left; constructor <;> simp [step]
  | stop drain =>
      cases hex : s.exited with
      | true => left; simp [step, hex]
      | false =>
          have hstep : step s (LoopEvent.stop drain) = stepStop s drain := by
            simp [step, hex]
          rw [hstep]
          simp only [stepStop]
          split
          · exact Or.inr ⟨_, rfl⟩
          · left; exact ⟨hex, rfl⟩
  | eval rid ops =>
      cases hex : s.exited with
      | true => left; simp [step, hex]
      | false =>
          have hstep : step s (LoopEvent.eval rid ops) = stepEval s rid ops := by
            simp [step, hex]
          rw [hstep]
          simp only [stepEval]
          split
          · exact Or.inr ⟨_, rfl⟩
          · left; constructor <;> simp [hex]
  | ready ops errored =>
      cases hex : s.exited with
      | true => left; simp [step, hex]
      | false =>
          have hstep : step s (LoopEvent.ready ops errored) = stepReady s ops errored := by
            simp [step, hex]
          rw [hstep]
          cases hr : s.ready with
          | nil => left; simp [stepReady, hr, hex]
          | cons t rest =>
              cases ht : t.interval
              · rw [stepReady_oneshot s ops errored t rest hr ht]
                dsimp only
                split
                · exact Or.inr ⟨_, rfl⟩
                · left; constructor <;> simp [hex]
              · rw [stepReady_interval s ops errored t rest hr ht]
                left; constructor <;> simp [hex]

/-- Claim C2 (amended): a stop signal with drain=false terminates the loop
at once, as does any stop signal while the registry is empty; a stop with
drain=true and a non-empty registry leaves the loop running in drain mode;
in drain mode the loop terminates at the emptiness checks performed after
servicing an evaluation request or after removing a fired one-shot timer
(emptiness reached inside a periodic timer's callback is not detected until
the next such check); on every termination path the registry is cleared,
every timer still registered at exit has its underlying timer stopped, and
the loop's done signal — the event `Stop` blocks on before returning — is
raised exactly at exit. -/
theorem stop_drain_semantics :
    (∀ s : LoopState, s.exited = false →
        (step s (LoopEvent.stop false)).exited = true
        ∧ (step s (LoopEvent.stop false)).registry = []
        ∧ (step s (LoopEvent.stop false)).doneSignaled = true)
    ∧ (∀ (s : LoopState) (drain : Bool), s.exited = false → s.registry = [] →
        (step s (LoopEvent.stop drain)).exited = true)
    ∧ (∀ s : LoopState, s.exited = false → s.registry ≠ [] →
        (step s (LoopEvent.stop true)).exited = false
        ∧ (step s (LoopEvent.stop true)).waitForCallbacks = true)
    ∧ (∀ (s : LoopState) (rid : Nat) (ops : List RegOp), s.exited = false →
        s.waitForCallbacks = true →
        (step s (LoopEvent.eval rid ops)).registry = [] →
        (step s (LoopEvent.eval rid ops)).exited = true)
    ∧ (∀ (s : LoopState) (ops : List RegOp) (errored : Bool) (t : jsTimer)
          (rest : List jsTimer),
        s.exited = false → s.ready = t :: rest → t.interval = false →
        s.waitForCallbacks = true →
        (step s (LoopEvent.ready ops errored)).registry = [] →
        (step s (LoopEvent.ready ops errored)).exited = true)
    ∧ (∀ (s : LoopState) (e : LoopEvent), s.exited = false →
        (step s e).exited = true →
        (step s e).registry = [] ∧ (step s e).doneSignaled = true)
    ∧ (∀ s : LoopState, (exitLoop s).registry = []
        ∧ ∀ t ∈ s.registry, ∀ u ∈ (exitLoop s).armed, u.id ≠ t.id)
    ∧ (∀ (s : LoopState) (e : LoopEvent), s.doneSignaled = s.exited →
        (step s e).doneSignaled = (step s e).exited) := by
  refine ⟨?_, ?_, ?_, ?_, ?_, ?_, ?_, ?_⟩
  · intro s hex
    simp [step, hex, stepStop]
  · intro s drain hex hreg
    simp [step, hex, stepStop, hreg]
  · intro s hex hreg
    have hne : s.registry.isEmpty = false := by
      cases hr : s.registry
      · exact absurd hr hreg
      · rfl
    simp [step, hex, stepStop, hne]
  · intro s rid ops hex hw hreg
    have hstep : step s (LoopEvent.eval rid ops) = stepEval s rid ops := by
      simp [step, hex]
    rw [hstep] at hreg ⊢
    simp only [stepEval] at hreg ⊢
    revert hreg
    split
    · intro _; simp
    · intro hreg
      rename_i hc
      exact absurd (by simp_all) hc
  · intro s ops errored t rest hex hr ht hw hreg
    have hstep : step s (LoopEvent.ready ops errored) = stepReady s ops errored := by
      simp [step, hex]
    rw [hstep] at hreg ⊢
    rw [stepReady_oneshot s ops errored t rest hr ht] at hreg ⊢
    revert hreg
    dsimp only
    split
    · intro _; simp
    · intro hreg
      rename_i hc
      exact absurd (by simp_all) hc
  · intro s e hex hexit
    rcases step_exit_dichotomy s e with ⟨h1, _⟩ | ⟨s', hs'⟩
    · rw [h1, hex] at hexit
      cases hexit
    · rw [hs']
      exact ⟨exitLoop_registry _, exitLoop_doneSignaled _⟩
  · intro s
    refine ⟨exitLoop_registry s, ?_⟩
    intro t htreg u hu
    simp only [exitLoop, List.mem_filter, decide_eq_true_eq, List.any_eq_true, not_exists,
      not_and] at hu
    intro hc
    exact hu.2 t htreg hc.symm
  · intro s e h
    rcases step_exit_dichotomy s e with ⟨h1, h2⟩ | ⟨s', hs'⟩
    · rw [h1, h2, h]
    · rw [hs']
      rfl

theorem stop_drain_semantics_witness :
    (step initState (LoopEvent.stop false)).exited = true
    ∧ (step initState (LoopEvent.stop true)).exited = true
    ∧ (step { initState with registry := [drainInterval] } (LoopEvent.stop true)).exited = false
    ∧ (step { initState with waitForCallbacks := true } (LoopEvent.eval 1 [])).exited = true
    ∧ (exitLoop { initState with registry := [drainInterval] }).registry = []
    ∧ (step initState (LoopEvent.stop false)).doneSignaled
        = (step initState (LoopEvent.stop false)).exited :=
  ⟨(stop_drain_semantics.1 initState rfl).1,
   stop_drain_semantics.2.1 initState true rfl rfl,
   (stop_drain_semantics.2.2.1 { initState with registry := [drainInterval] } rfl
      (by decide)).1,
   stop_drain_semantics.2.2.2.1 { initState with waitForCallbacks := true } 1 [] rfl rfl
      (by decide),
   (stop_drain_semantics.2.2.2.2.2.2.1 { initState with registry := [drainInterval] }).1,
   stop_drain_semantics.2.2.2.2.2.2.2 initState (LoopEvent.stop false) rfl⟩

/-! ## Counting lemmas for the one-shot at-most-once invariant -/

theorem countId_append (l1 l2 : List jsTimer) (i : Nat) :
    countId (l1 ++ l2) i = countId l1 i + countId l2 i := by
  simp [countId, List.countP_append]

theorem countId_cons (t : jsTimer) (l : List jsTimer) (i : Nat) :
    countId (t :: l) i = countId l i + (if t.id = i then 1 else 0) := by
  by_cases hti : t.id = i <;> simp [countId, List.countP_cons, hti]

theorem countId_filter_le (l : List jsTimer) (q : jsTimer → Bool) (i : Nat) :
    countId (l.filter q) i ≤ countId l i := by
  induction l with
  | nil => exact le_refl _
  | cons a l ih =>
      rw [List.filter_cons, countId_cons]
      by_cases hq : q a
      · rw [if_pos hq, countId_cons]
        omega
      · rw [if_neg hq]
        omega

theorem countId_filter_ne (l : List jsTimer) (i j : Nat) (hij : i ≠ j) :
    countId (l.filter (fun u => u.id ≠ j)) i = countId l i := by
  induction l with
  | nil => rfl
  | cons a l ih =>
      rw [List.filter_cons, countId_cons]
      by_cases ha : a.id = j
      · rw [if_neg (by simp [ha]), ih]
        have h1 : ¬ a.id = i := fun hc => hij (by omega)
        simp [h1]
      · rw [if_pos (by simpa using ha), countId_cons, ih]

theorem countId_filter_self (l : List jsTimer) (j : Nat) :
    countId (l.filter (fun u => u.id ≠ j)) j = 0 := by
  induction l with
  | nil => rfl
  | cons a l ih =>
      rw [List.filter_cons]
      by_cases ha : a.id = j
      · rw [if_neg (by simp [ha])]
        exact ih
      · rw [if_pos (by simpa using ha), countId_cons, ih]
        simp [ha]

theorem countId_pos_of_mem {l : List jsTimer} {t : jsTimer} (h : t ∈ l) {i : Nat}
    (hid : t.id = i) : 1 ≤ countId l i :=
  List.countP_pos_iff.mpr ⟨t, h, by simp [hid]⟩

/-- One operation that does not create the identity `i` cannot increase the
at-most-once measure. -/
theorem applyOp_measure (s : LoopState) (op : RegOp) (i : Nat)
    (h : opTargetsId op i = false) :
    oneShotMeasure (applyOp s op) i ≤ oneShotMeasure s i := by
  cases op with
  | newT t =>
      have ht : ¬ t.id = i := by simpa [opTargetsId] using h
      simp only [oneShotMeasure, applyOp, firedCount]
      try dsimp only
      rw [countId_append]
      simp [countId, List.countP_cons, ht]
  | clearT j =>
      have h1 := countId_filter_le s.armed (fun u => u.id ≠ j) i
      simp only [oneShotMeasure, applyOp, firedCount]
      try dsimp only
      omega

theorem applyOp_oneShotAt (s : LoopState) (op : RegOp) (i : Nat)
    (h : opTargetsId op i = false) (hone : oneShotAt s i) : oneShotAt (applyOp s op) i := by
  cases op with
  | newT t =>
      intro u hu hid
      have ht : ¬ t.id = i := by simpa [opTargetsId] using h
      simp only [applyOp] at hu
      try dsimp only at hu
      rcases List.mem_append.mp hu with h1 | h1
      · rcases List.mem_append.mp h1 with h2 | h2
        · exact hone u (List.mem_append_left _ h2) hid
        · have : u = t := by simpa using h2
          subst this
          exact absurd hid ht
      · exact hone u (List.mem_append_right _ h1) hid
  | clearT j =>
      intro u hu hid
      simp only [applyOp] at hu
      try dsimp only at hu
      rcases List.mem_append.mp hu with h1 | h1
      · exact hone u (List.mem_append_left _ (List.mem_of_mem_filter h1)) hid
      · exact hone u (List.mem_append_right _ h1) hid

theorem applyOps_measure (ops : List RegOp) (i : Nat) :
    ∀ s : LoopState, opsAvoid ops i →
      oneShotMeasure (applyOps s ops) i ≤ oneShotMeasure s i := by
  induction ops with
  | nil => intro s _; exact le_refl _
  | cons op ops ih =>
      intro s h
      have h1 : opTargetsId op i = false := h op (List.mem_cons_self op ops)
      have h2 : opsAvoid ops i := fun op' hop' => h op' (List.mem_cons_of_mem _ hop')
      rw [applyOps_cons]
      exact le_trans (ih (applyOp s op) h2) (applyOp_measure s op i h1)

theorem applyOps_oneShotAt (ops : List RegOp) (i : Nat) :
    ∀ s : LoopState, opsAvoid ops i → oneShotAt s i → oneShotAt (applyOps s ops) i := by
  induction ops with
  | nil => intro s _ hone; exact hone
  | cons op ops ih =>
      intro s h hone
      have h1 : opTargetsId op i = false := h op (List.mem_cons_self op ops)
      have h2 : opsAvoid ops i := fun op' hop' => h op' (List.mem_cons_of_mem _ hop')
      rw [applyOps_cons]
      exact ih (applyOp s op) h2 (applyOp_oneShotAt s op i h1 hone)

theorem exitLoop_measure (s : LoopState) (i : Nat) :
    oneShotMeasure (exitLoop s) i ≤ oneShotMeasure s i := by
  have h1 := countId_filter_le s.armed
    (fun t => ¬ s.registry.any (fun u => u.id = t.id)) i
  simp only [oneShotMeasure, exitLoop, firedCount]
  try dsimp only
  omega

theorem exitLoop_oneShotAt (s : LoopState) (i : Nat) (hone : oneShotAt s i) :
    oneShotAt (exitLoop s) i := by
  intro u hu hid
  simp only [exitLoop] at hu
  try dsimp only at hu
  rcases List.mem_append.mp hu with h1 | h1
  · exact hone u (List.mem_append_left _ (List.mem_of_mem_filter h1)) hid
  · exact hone u (List.mem_append_right _ h1) hid

/-- Receiving the head ready notification and logging its engine invocation
moves one unit of the measure from the ready queue to the invocation log
(or touches neither when the identities differ). -/
theorem fire_prefix_measure (s : LoopState) (t : jsTimer) (rest : List jsTimer) (i : Nat)
    (hr : s.ready = t :: rest) :
    oneShotMeasure { s with
        ready := rest
        firedLog := s.firedLog ++ [(t.id, buildArguments t.argumentList)] } i
      = oneShotMeasure s i := by
  by_cases hti : t.id = i <;>
    simp [oneShotMeasure, countId_cons, firedCount, hr, List.countP_append,
      List.countP_cons, hti] <;>
    omega

theorem fire_prefix_oneShotAt (s : LoopState) (t : jsTimer) (rest : List jsTimer) (i : Nat)
    (hr : s.ready = t :: rest) (hone : oneShotAt s i) :
    oneShotAt { s with
        ready := rest
        firedLog := s.firedLog ++ [(t.id, buildArguments t.argumentList)] } i := by
  intro u hu hid
  refine hone u ?_ hid
  try dsimp only at hu
  rcases List.mem_append.mp hu with h1 | h1
  · exact List.mem_append_left _ h1
  · rw [hr]
    exact List.mem_append_right _ (List.mem_cons_of_mem _ h1)

/-- Rearming the fired periodic timer (whose identity differs from `i`)
after filtering out its stale armed record cannot increase the measure. -/
theorem rearm_measure (s2 : LoopState) (el : List Nat) (t : jsTimer) (i : Nat)
    (hti : ¬ t.id = i) :
    oneShotMeasure { s2 with
        errorLog := el
        armed := s2.armed.filter (fun u => u.id ≠ t.id) ++ [t] } i
      ≤ oneShotMeasure s2 i := by
  have hle := countId_filter_le s2.armed (fun u => u.id ≠ t.id) i
  have h0 : countId ([] : List jsTimer) i = 0 := rfl
  simp only [oneShotMeasure, firedCount]
  try dsimp only
  rw [countId_append, countId_cons, if_neg hti]
  omega

/-- Any step of the system for which the scripts never re-create the
identity `i`, starting from a state where every record of identity `i` is
one-shot, cannot increase the at-most-once measure, and preserves
one-shot-ness. -/
theorem step_measure (s : LoopState) (e : LoopEvent) (i : Nat) (hav : eventAvoids e i)
    (hone : oneShotAt s i) :
    oneShotMeasure (step s e) i ≤ oneShotMeasure s i ∧ oneShotAt (step s e) i := by
  cases e with
  | expire j =>
      simp only [step, stepExpire]
      cases hf : s.armed.find? (fun t => t.id = j) with
      | none => exact ⟨le_refl _, hone⟩
      | some t =>
          have htmem : t ∈ s.armed := List.mem_of_find?_eq_some hf
          have htid : t.id = j := by simpa using List.find?_some hf
          constructor
          · by_cases hij : i = j
            · have h0 : countId (s.armed.filter (fun u => u.id ≠ j)) i = 0 := by
                rw [hij]
                exact countId_filter_self s.armed j
              have h1 : 1 ≤ countId s.armed i :=
                countId_pos_of_mem htmem (by omega)
              have h2 : countId (s.ready ++ [t]) i
                  = countId s.ready i + 1 := by
                rw [countId_append, countId_cons]
                simp [countId]
                omega
              simp only [oneShotMeasure, firedCount]
              try dsimp only
              omega
            · have h0 : countId (s.armed.filter (fun u => u.id ≠ j)) i
                  = countId s.armed i := countId_filter_ne s.armed i j hij
              have h2 : countId (s.ready ++ [t]) i = countId s.ready i := by
                rw [countId_append, countId_cons]
                have : ¬ t.id = i := by omega
                simp [countId, this]
              simp only [oneShotMeasure, firedCount]
              try dsimp only
              omega
          · intro u hu hid
            try dsimp only at hu
            rcases List.mem_append.mp hu with h1 | h1
            · exact hone u (List.mem_append_left _ (List.mem_of_mem_filter h1)) hid
            · rcases List.mem_append.mp h1 with h2 | h2
              · exact hone u (List.mem_append_right _ h2) hid
              · have : u = t := by simpa using h2
                subst this
                exact hone u (List.mem_append_left _ htmem) hid
  | stop drain =>
      simp only [step]
      split
      · exact ⟨le_refl _, hone⟩
      · simp only [stepStop]
        try dsimp only
        split
        · exact ⟨exitLoop_measure _ i, exitLoop_oneShotAt _ i hone⟩
        · exact ⟨le_refl _, hone⟩
  | eval rid ops =>
      simp only [step]
      split
      · exact ⟨le_refl _, hone⟩
      · simp only [stepEval]
        try dsimp only
        split
        · exact ⟨le_trans (exitLoop_measure _ i) (applyOps_measure ops i _ hav),
            exitLoop_oneShotAt _ i (applyOps_oneShotAt ops i _ hav hone)⟩
        · exact ⟨applyOps_measure ops i _ hav, applyOps_oneShotAt ops i _ hav hone⟩
  | ready ops errored =>
      simp only [step]
      split
      · exact ⟨le_refl _, hone⟩
      · cases hr : s.ready with
        | nil =>
            rw [show stepReady s ops errored = s from by simp [stepReady, hr]]
            exact ⟨le_refl _, hone⟩
        | cons t rest =>
            have hmeas := fire_prefix_measure s t rest i hr
            have honep := fire_prefix_oneShotAt s t rest i hr hone
            cases ht : t.interval with
            | false =>
                rw [stepReady_oneshot s ops errored t rest hr ht]
                dsimp only
                split
                · exact ⟨le_trans (exitLoop_measure _ i)
                    (le_trans (applyOps_measure ops i _ hav) (le_of_eq hmeas)),
                    exitLoop_oneShotAt _ i (applyOps_oneShotAt ops i _ hav honep)⟩
                · exact ⟨le_trans (applyOps_measure ops i _ hav) (le_of_eq hmeas),
                    applyOps_oneShotAt ops i _ hav honep⟩
            | true =>
                have hti : ¬ t.id = i := by
                  intro hc
                  have := hone t (by
                    rw [hr]
                    exact List.mem_append_right _ (List.mem_cons_self t rest)) hc
                  rw [ht] at this
                  cases this
                rw [stepReady_interval s ops errored t rest hr ht]
                dsimp only
                have h3 := applyOps_oneShotAt ops i _ hav honep
                have h2 := le_trans (applyOps_measure ops i _ hav) (le_of_eq hmeas)
                constructor
                · exact le_trans (rearm_measure _ _ t i hti) h2
                · intro u hu hid
                  try dsimp only at hu
                  rcases List.mem_append.mp hu with h1 | h1
                  · rcases List.mem_append.mp h1 with h4 | h4
                    · exact h3 u (List.mem_append_left _ (List.mem_of_mem_filter h4)) hid
                    · have : u = t := by simpa using h4
                      subst this
                      exact absurd hid hti
                  · exact h3 u (List.mem_append_right _ h1) hid

/-- The at-most-once measure never grows along a run whose events never
re-create the identity `i`. -/
theorem run_measure (events : List LoopEvent) (i : Nat) :
    ∀ s : LoopState, (∀ e ∈ events, eventAvoids e i) → oneShotAt s i →
      oneShotMeasure (run s events) i ≤ oneShotMeasure s i
      ∧ oneShotAt (run s events) i := by
  induction events with
  | nil => intro s _ hone; exact ⟨le_refl _, hone⟩
  | cons e events ih =>
      intro s hav hone
      have h1 := step_measure s e i (hav e (List.mem_cons_self e events)) hone
      have h2 := ih (step s e) (fun e' he' => hav e' (List.mem_cons_of_mem _ he')) h1.2
      exact ⟨le_trans h2.1 h1.1, h2.2⟩

/-- Claim C4: after every fire handled by the dispatch loop, a periodic
timer is rearmed in place with its original delay (the very same record,
carrying its original duration, is rearmed; the loop continues; the
registry entry survives the fire unless the callback itself cancelled it),
while a one-shot timer is removed from the registry (its identity is absent
afterwards in every branch); and along any run whose events never re-create
a given identity, a timer of that identity that is one-shot fires at most
as often as the at-most-once measure of the start state allows (so a
one-shot timer armed once fires at most once). -/
theorem timer_rearm_and_oneshot_semantics :
    (∀ (s : LoopState) (ops : List RegOp) (errored : Bool) (t : jsTimer)
        (rest : List jsTimer), s.ready = t :: rest → t.interval = true →
        t ∈ (stepReady s ops errored).armed
        ∧ (stepReady s ops errored).exited = s.exited
        ∧ (∀ u ∈ s.registry, RegOp.clearT u.id ∉ ops →
            u ∈ (stepReady s ops errored).registry))
    ∧ (∀ (s : LoopState) (ops : List RegOp) (errored : Bool) (t : jsTimer)
        (rest : List jsTimer), s.ready = t :: rest → t.interval = false →
        ∀ u ∈ (stepReady s ops errored).registry, u.id ≠ t.id)
    ∧ (∀ (s : LoopState) (events : List LoopEvent) (i : Nat),
        (∀ e ∈ events, eventAvoids e i) → oneShotAt s i →
        firedCount (run s events) i ≤ oneShotMeasure s i) := by
  refine ⟨?_, ?_, ?_⟩
  · intro s ops errored t rest hr ht
    rw [stepReady_interval s ops errored t rest hr ht]
    dsimp only
    refine ⟨List.mem_append_right _ (List.mem_cons_self t []), by simp, ?_⟩
    intro u hu hops
    exact mem_registry_applyOps ops _ u hu hops
  · intro s ops errored t rest hr ht
    rw [stepReady_oneshot s ops errored t rest hr ht]
    dsimp only
    split
    · intro u hu
      exact absurd hu (by simp)
    · intro u hu
      have h4 := (List.mem_filter.mp hu).2
      simpa using h4
  · intro s events i hav hone
    have h := run_measure events i s hav hone
    have h2 : firedCount (run s events) i ≤ oneShotMeasure (run s events) i := by
      simp only [oneShotMeasure]
      omega
    exact le_trans h2 h.1

theorem timer_rearm_and_oneshot_semantics_witness :
    drainInterval ∈ (stepReady { initState with ready := [drainInterval] } [] false).armed
    ∧ (∀ u ∈ (stepReady { initState with ready := [cancelledOneShot] } [] false).registry,
        u.id ≠ cancelledOneShot.id)
    ∧ firedCount
        (run { initState with
            registry := [fireArgsTimer]
            armed := [fireArgsTimer] }
          [LoopEvent.expire 0, LoopEvent.ready [] false]) 0
      ≤ oneShotMeasure { initState with
            registry := [fireArgsTimer]
            armed := [fireArgsTimer] } 0 :=
  ⟨(timer_rearm_and_oneshot_semantics.1 _ [] false drainInterval [] rfl rfl).1,
   timer_rearm_and_oneshot_semantics.2.1 _ [] false cancelledOneShot [] rfl rfl,
   timer_rearm_and_oneshot_semantics.2.2 _ [LoopEvent.expire 0, LoopEvent.ready [] false] 0
     (by decide) (by decide)⟩

end Jsre
